import Mathlib

/-!
Shallow embedding of the SharkAgent7 decision engine and its training loop
(`src/agents/shark_agent7.py`, `src/training_files/shark/shark7/train_shark7.py`)
for verification of the natural-language specification.

Machine reals of the Python source (floats holding small decimal constants,
token values and score sums) are modelled as rationals; Python `id(action)`
object identity is modelled as a natural-number tag `aid` carried by each
observed action.
-/

namespace Shark7

/-- Enumeration `GoodType` of the bazaar_ai engine: six market goods plus the
camel. -/
inductive Good where
  | diamond
  | gold
  | silver
  | fabric
  | spice
  | leather
  | camel
deriving DecidableEq, Repr

/-- Canonical iteration order of `GoodType` (the order of the `TOTAL_CARDS`
literal in the source). -/
def Good.all : List Good :=
  [.diamond, .gold, .silver, .fabric, .spice, .leather, .camel]

open Good

/-- Constant `TOTAL_CARDS` of shark_agent7.py: fixed total supply per good. -/
def TOTAL_CARDS : Good → ℤ
  | .diamond => 6
  | .gold => 6
  | .silver => 6
  | .fabric => 8
  | .spice => 8
  | .leather => 10
  | .camel => 11

/-- Tagged union of the three trader action kinds (`SellAction`, `TakeAction`,
`TradeAction`).  `take` carries the count Python reads via
`getattr(act, '_count', 1)`; `trade` carries the requested and offered
good multisets. -/
inductive TraderAction where
  | sell (good : Good) (count : ℕ)
  | take (good : Good) (count : ℕ)
  | trade (requested offered : Good → ℕ)

/-- An observed action together with its Python object identity `id(action)`. -/
structure ActionRef where
  aid : ℕ
  act : TraderAction

/-- Fields of the engine observation consumed by SharkAgent7.  Token (coin)
stacks are lists of values, topmost value last, matching the Python lists. -/
structure Obs where
  action : Option ActionRef
  market_goods : Good → ℕ
  actor_goods : Good → ℕ
  market_goods_coins : Good → List ℚ
  actor_goods_coins : Good → List ℚ
  market_reserved_goods_count : ℕ
  max_player_goods_count : ℕ

/-- State of `GlobalStateTracker` (shark_agent7.py lines 15-26). -/
structure GlobalStateTracker where
  opp_confirmed : Good → ℤ
  opp_hand_size : ℤ
  opp_camels : ℤ
  opp_score_est : ℚ
  sold_cards : Good → ℤ
  last_action_id : Option ℕ

/-- Freshly constructed tracker (`GlobalStateTracker.__init__`). -/
def initTracker : GlobalStateTracker :=
  { opp_confirmed := fun _ => 0
    opp_hand_size := 5
    opp_camels := 0
    opp_score_est := 0
    sold_cards := fun _ => 0
    last_action_id := none }

/-- Average unit value used for the opponent score estimate
(`avg_val = 5 if good in [DIAMOND, GOLD] else 2`). -/
def avgUnitValue (good : Good) : ℚ :=
  if good = diamond ∨ good = gold then 5 else 2

/-- Set-size bonus schedule used for the opponent score estimate in
`GlobalStateTracker.update` (shark_agent7.py lines 46-49). -/
def sellBonusEst (count : ℕ) : ℚ :=
  if count = 3 then 2 else if count = 4 then 5 else if 5 ≤ count then 9 else 0

/-- Effect of one observed action on the tracker counters, the body of
`GlobalStateTracker.update` after the identity de-duplication guard
(shark_agent7.py lines 33-74). -/
def applyAct (t : GlobalStateTracker) : TraderAction → GlobalStateTracker
  | .sell good count =>
      { t with
        opp_hand_size := t.opp_hand_size - count
        opp_confirmed := fun g =>
          if g = good then t.opp_confirmed g - min (t.opp_confirmed good) (count : ℤ)
          else t.opp_confirmed g
        sold_cards := fun g =>
          if g = good then t.sold_cards g + count else t.sold_cards g
        opp_score_est :=
          t.opp_score_est + (count : ℚ) * avgUnitValue good + sellBonusEst count }
  | .take good count =>
      if good = camel then
        { t with opp_camels := t.opp_camels + count }
      else
        { t with
          opp_hand_size := t.opp_hand_size + 1
          opp_confirmed := fun g =>
            if g = good then t.opp_confirmed g + 1 else t.opp_confirmed g }
  | .trade req off =>
      let c1 : Good → ℤ := fun g =>
        if 0 < req g then t.opp_confirmed g + req g else t.opp_confirmed g
      let c2 : Good → ℤ := fun g =>
        if 0 < off g ∧ g ≠ camel then c1 g - min (c1 g) (off g : ℤ) else c1 g
      { t with
        opp_confirmed := c2
        opp_camels :=
          if 0 < off camel then max 0 (t.opp_camels - off camel) else t.opp_camels }

/-- Method `GlobalStateTracker.update` (shark_agent7.py lines 28-74): ignore a
missing action, de-duplicate by object identity, record the identity, then
apply the action's effect. -/
def update (t : GlobalStateTracker) (obs : Obs) : GlobalStateTracker :=
  match obs.action with
  | none => t
  | some a =>
      if t.last_action_id = some a.aid then t
      else applyAct { t with last_action_id := some a.aid } a.act

/-- Method `GlobalStateTracker.get_deck_remaining` (shark_agent7.py lines
76-83): per good, total supply minus market, own hand, confirmed opponent
hand and cumulative sold cards, clamped at zero. -/
def get_deck_remaining (t : GlobalStateTracker) (obs : Obs) : Good → ℤ :=
  fun g =>
    max 0 (TOTAL_CARDS g - (obs.market_goods g : ℤ) - (obs.actor_goods g : ℤ)
      - t.opp_confirmed g - t.sold_cards g)

/-- Effect of one action on the tracker of the training-script copy of the
tracker (`train_shark7.py` lines 49-65); identical to `applyAct` except that
the Sell branch adds `act._count * val` to the score estimate without the
set-size bonus term. -/
def trainApplyAct (t : GlobalStateTracker) : TraderAction → GlobalStateTracker
  | .sell good count =>
      { t with
        opp_hand_size := t.opp_hand_size - count
        opp_confirmed := fun g =>
          if g = good then t.opp_confirmed g - min (t.opp_confirmed good) (count : ℤ)
          else t.opp_confirmed g
        sold_cards := fun g =>
          if g = good then t.sold_cards g + count else t.sold_cards g
        opp_score_est := t.opp_score_est + (count : ℚ) * avgUnitValue good }
  | .take good count =>
      if good = camel then
        { t with opp_camels := t.opp_camels + count }
      else
        { t with
          opp_hand_size := t.opp_hand_size + 1
          opp_confirmed := fun g =>
            if g = good then t.opp_confirmed g + 1 else t.opp_confirmed g }
  | .trade req off =>
      let c1 : Good → ℤ := fun g =>
        if 0 < req g then t.opp_confirmed g + req g else t.opp_confirmed g
      let c2 : Good → ℤ := fun g =>
        if 0 < off g ∧ g ≠ camel then c1 g - min (c1 g) (off g : ℤ) else c1 g
      { t with
        opp_confirmed := c2
        opp_camels :=
          if 0 < off camel then max 0 (t.opp_camels - off camel) else t.opp_camels }

/-- Method `GlobalStateTracker.update` of train_shark7.py (lines 49-65). -/
def trainUpdate (t : GlobalStateTracker) (obs : Obs) : GlobalStateTracker :=
  match obs.action with
  | none => t
  | some a =>
      if t.last_action_id = some a.aid then t
      else trainApplyAct { t with last_action_id := some a.aid } a.act

/-- Named weight vector parameterizing the scoring heuristics
(`SharkAgent7.genome`). -/
structure Genome where
  bonus_3_est : ℚ
  bonus_4_est : ℚ
  bonus_5_est : ℚ
  luxury_mult : ℚ
  cheap_mult : ℚ
  pressure_weight : ℚ
  camel_min_util : ℚ
  camel_take_val : ℚ
  fishing_bonus : ℚ
  trade_set_bonus : ℚ
  luxury_take_add : ℚ
  set_break_penalty : ℚ
  denial_weight : ℚ
  impossible_sell_bonus : ℚ
  scarcity_bonus : ℚ
  waste_penalty : ℚ
  endgame_rush_bonus : ℚ
  endgame_camel_value : ℚ
  mercy_kill_bonus : ℚ

/-- The shipped Gen-108 genome of SharkAgent7 (shark_agent7.py lines 104-134). -/
def gen108 : Genome :=
  { bonus_3_est := 1.561
    bonus_4_est := 1.512
    bonus_5_est := 47.439
    luxury_mult := 0.251
    cheap_mult := 5.911
    pressure_weight := 7.691
    camel_min_util := 4.203
    camel_take_val := -0.094
    fishing_bonus := 0.831
    trade_set_bonus := 4.024
    luxury_take_add := 0.355
    set_break_penalty := 76.381
    denial_weight := 0.020
    impossible_sell_bonus := 15.739
    scarcity_bonus := 12.783
    waste_penalty := 0.107
    endgame_rush_bonus := 20.037
    endgame_camel_value := 0.102
    mercy_kill_bonus := 1.024 }

/-- Last `n` elements of a list, the Python slice `l[-n:]` for `n > 0`. -/
def lastN (n : ℕ) (l : List ℚ) : List ℚ :=
  l.drop (l.length - n)

/-- Method `SharkAgent7._get_exact_value` (lines 195-199): value of the top
`count` tokens of the good's stack.  The Python slice `tokens[-real_sales:]`
yields the whole list when `real_sales = 0`, which the second branch mirrors
(only reachable with `count = 0`). -/
def get_exact_value (good : Good) (count : ℕ) (obs : Obs) : ℚ :=
  let tokens := obs.market_goods_coins good
  if tokens.isEmpty then 0
  else
    let real_sales := min count tokens.length
    if real_sales = 0 then tokens.sum else (lastN real_sales tokens).sum

/-- Method `SharkAgent7._calculate_opponent_potential` (lines 201-211). -/
def calculate_opponent_potential (good : Good) (opp_confirmed_count : ℤ)
    (deck_remaining : Good → ℤ) (obs : Obs) : ℚ :=
  let max_possible := opp_confirmed_count + deck_remaining good + (obs.market_goods good : ℤ)
  let potential_count := opp_confirmed_count + 1
  if max_possible < potential_count then 0
  else if potential_count < 3 then 0
  else
    let tokens := obs.market_goods_coins good
    if tokens.isEmpty then 0
    else
      let take_n := min potential_count.toNat tokens.length
      (lastN take_n tokens).sum + (if potential_count = 3 then 2 else 5)

/-- Number of empty market token piles,
`sum(1 for g in GoodType if not obs.market_goods_coins.get(g, []))`. -/
def empty_piles (obs : Obs) : ℕ :=
  (Good.all.filter (fun g => (obs.market_goods_coins g).isEmpty)).length

/-- Set-completion bonus component of Sell scoring, keyed by sell count
(shark_agent7.py lines 234-237). -/
def sellSetBonus (p : Genome) (count : ℕ) : ℚ :=
  if count = 3 then p.bonus_3_est
  else if count = 4 then p.bonus_4_est
  else if 5 ≤ count then p.bonus_5_est
  else 0

/-- Pre-branch total of `SharkAgent7._score_sell` (lines 218-249):
`points + bonus + race_bonus + mercy_kill_bonus - waste_penalty`, with each
summand inlined from the source. -/
def sellTotal (p : Genome) (good : Good) (count : ℕ) (obs : Obs)
    (opp_confirmed deck : Good → ℤ) (is_endgame am_i_winning : Bool) : ℚ :=
  get_exact_value good count obs
    + sellSetBonus p count
    + ((if (good = diamond ∨ good = gold ∨ good = silver)
          ∧ 2 ≤ opp_confirmed good ∧ 3 ≤ count then 8 else 0)
      + (if deck good = 0 ∧ opp_confirmed good = 0 ∧ obs.market_goods good = 0 then
          p.impossible_sell_bonus else 0)
      + (if is_endgame ∧ 3 ≤ count then p.endgame_rush_bonus else 0))
    + (if am_i_winning ∧ (obs.market_goods_coins good).length ≤ count then
        (if 2 ≤ empty_piles obs then p.mercy_kill_bonus else 0) else 0)
    - (if (obs.market_goods_coins good).length < count then
        p.waste_penalty * ((count : ℚ) - ((obs.market_goods_coins good).length : ℚ)) else 0)

/-- Method `SharkAgent7._score_sell` (lines 213-257): the pre-branch total fed
through the luxury / cheap-good / default branch dispatch of lines 251-257. -/
def score_sell (p : Genome) (good : Good) (count : ℕ) (obs : Obs) (pressure : ℚ)
    (opp_confirmed : Good → ℤ) (deck : Good → ℤ) (is_endgame am_i_winning : Bool) : ℚ :=
  let total := sellTotal p good count obs opp_confirmed deck is_endgame am_i_winning
  if good = diamond ∨ good = gold ∨ good = silver then total * p.luxury_mult + pressure
  else if good = leather ∨ good = spice ∨ good = fabric then
    if 5 ≤ count then total * p.cheap_mult + pressure + 10
    else if count = 4 then total * (p.cheap_mult * 0.75) + pressure + 5
    else if is_endgame ∧ 3 ≤ count then total + pressure
    else if count ≤ 2 ∧ pressure < 10 then -50
    else total + pressure
  else total + pressure

/-- Set-completion step bonus of Take scoring, keyed by the current hand count
(shark_agent7.py lines 288-289: `if in_hand == 3: score += (15 + scarcity)`,
`if in_hand == 4: score += (20 + scarcity)`). -/
def takeSetBonus (scarcity : ℚ) (in_hand : ℕ) : ℚ :=
  (if in_hand = 3 then 15 + scarcity else 0) + (if in_hand = 4 then 20 + scarcity else 0)

/-- Method `SharkAgent7._score_take` (lines 259-297). -/
def score_take (p : Genome) (good : Good) (obs : Obs) (current_hand_size : ℕ)
    (pressure : ℚ) (opp_confirmed : Good → ℤ) (opp_locked : Bool)
    (is_endgame : Bool) (deck : Good → ℤ) : ℚ :=
  if good = camel then
    let wanted : ℤ :=
      ((Good.all.filter (fun t => t ≠ camel ∧ 2 ≤ obs.actor_goods t)).map deck).sum
    let deck_total : ℤ := (Good.all.map deck).sum
    let fishing_score : ℚ :=
      if 0 < deck_total then ((wanted : ℚ) / (deck_total : ℚ)) * p.fishing_bonus else 0
    if is_endgame then p.endgame_camel_value
    else if obs.actor_goods camel < 2 then p.camel_min_util
    else p.camel_take_val + fishing_score
  else
    let tokens := obs.market_goods_coins good
    let base : ℚ := tokens.getLast?.getD 1
    let in_hand := obs.actor_goods good
    let scarcity_bonus : ℚ :=
      if deck good = 0 then p.scarcity_bonus
      else if deck good = 1 then p.scarcity_bonus / 2
      else 0
    let score1 := base + takeSetBonus scarcity_bonus in_hand
      + (if good = diamond ∨ good = gold then p.luxury_take_add else 0)
    let threat_value := calculate_opponent_potential good (opp_confirmed good) deck obs
    let score2 := score1 + (if 0 < threat_value then threat_value * p.denial_weight else 0)
    let score3 := if opp_locked ∧ score2 < 20 then score2 - 2 else score2
    score3 - pressure

/-- Hand count excluding camels, `goods.count(include_camels=False)`. -/
def countNonCamel (h : Good → ℕ) : ℕ :=
  ((Good.all.filter (fun g => g ≠ camel)).map h).sum

/-- Method `SharkAgent7._score_trade` (lines 299-337). -/
def score_trade (p : Genome) (req off : Good → ℕ) (obs : Obs)
    (current_hand_size : ℕ) (deck : Good → ℤ) : ℚ :=
  let value_in : ℚ :=
    (Good.all.map (fun g =>
      if 0 < req g then
        if 5 ≤ obs.actor_goods g + req g then p.trade_set_bonus
        else if obs.actor_goods g + req g = 4 ∧ deck g = 0 then p.trade_set_bonus
        else (obs.market_goods_coins g).getLast?.getD 0
      else 0)).sum
  let completes_set :=
    Good.all.any (fun g => decide (0 < req g ∧ 5 ≤ obs.actor_goods g + req g))
  let value_out : ℚ :=
    (Good.all.map (fun g =>
      if 0 < off g then
        if g = camel then 2
        else
          (obs.market_goods_coins g).getLast?.getD 0
          + (if 3 ≤ obs.actor_goods g then
              (if g = diamond ∨ g = gold ∨ g = silver then p.set_break_penalty else 2)
            else 0)
      else 0)).sum
  let space_change : ℤ := (countNonCamel req : ℤ) - (countNonCamel off : ℤ)
  let value_in2 := value_in + (if 6 ≤ current_hand_size ∧ space_change < 0 then 10 else 0)
  if completes_set then 100 + (value_in2 - value_out) else value_in2 - value_out

/-- Per-turn decision context derived at the top of `SharkAgent7.select_action`
(lines 137-164) from the freshly updated tracker and the observation. -/
structure Ctx where
  obs : Obs
  pressure : ℚ
  opp_confirmed : Good → ℤ
  deck : Good → ℤ
  opp_locked : Bool
  is_endgame : Bool
  am_i_winning : Bool
  hand_size : ℕ

/-- Context derivation of `SharkAgent7.select_action` steps 2 and 3 (lines
141-164), taking the already-updated tracker. -/
def mkCtx (p : Genome) (t : GlobalStateTracker) (obs : Obs) : Ctx :=
  let deck := get_deck_remaining t obs
  let cards_in_deck := obs.market_reserved_goods_count
  let is_endgame : Bool := decide (cards_in_deck ≤ 8 ∨ 2 ≤ empty_piles obs)
  let my_score : ℚ := (Good.all.map (fun g => (obs.actor_goods_coins g).sum)).sum
  let am_i_winning : Bool := decide (t.opp_score_est + 10 < my_score)
  let hand_size := countNonCamel obs.actor_goods
  let limit := obs.max_player_goods_count
  let pressure : ℚ :=
    if limit ≤ hand_size then 20 * p.pressure_weight
    else if limit - 1 ≤ hand_size then 5 * p.pressure_weight
    else 0
  { obs := obs
    pressure := pressure
    opp_confirmed := t.opp_confirmed
    deck := deck
    opp_locked := decide (7 ≤ t.opp_hand_size)
    is_endgame := is_endgame
    am_i_winning := am_i_winning
    hand_size := hand_size }

/-- Dispatch of the scoring subroutines on the action kind
(`select_action` lines 170-177). -/
def actionScore (p : Genome) (c : Ctx) : TraderAction → ℚ
  | .sell good count =>
      score_sell p good count c.obs c.pressure c.opp_confirmed c.deck c.is_endgame c.am_i_winning
  | .take good _ =>
      score_take p good c.obs c.hand_size c.pressure c.opp_confirmed c.opp_locked c.is_endgame c.deck
  | .trade req off =>
      score_trade p req off c.obs c.hand_size c.deck

/-- Score every action, adding the i-th jitter draw `random.random() * 0.1`
(`select_action` line 180); `rand i` models the i-th call to
`random.random()`. -/
def scoreList (p : Genome) (c : Ctx) (rand : ℕ → ℚ) : ℕ → List TraderAction → List (TraderAction × ℚ)
  | _, [] => []
  | i, a :: rest => (a, actionScore p c a + rand i * 0.1) :: scoreList p c rand (i + 1) rest

/-- One step of the running-best comparison `if score > best_score`
(`select_action` lines 182-184). -/
def selStep (best : Option (TraderAction × ℚ)) (q : TraderAction × ℚ) :
    Option (TraderAction × ℚ) :=
  match best with
  | none => some q
  | some b => if b.2 < q.2 then some q else some b

/-- Arg-max loop of `select_action` (lines 167-184); `none` plays the role of
the initial `best_score = float('-inf')`, which every real score beats. -/
def selectBest (l : List (TraderAction × ℚ)) : Option (TraderAction × ℚ) :=
  l.foldl selStep none

/-- Method `SharkAgent7.select_action` (lines 137-185): update the tracker,
derive the context, score every legal action with jitter and return the
arg-max action. -/
def select_action (p : Genome) (t : GlobalStateTracker) (actions : List TraderAction)
    (obs : Obs) (rand : ℕ → ℚ) : Option TraderAction :=
  let t2 := update t obs
  let c := mkCtx p t2 obs
  (selectBest (scoreList p c rand 0 actions)).map Prod.fst

/-- Outcome of the simulated game inside the `try` block of `play_match`
(train_shark7.py lines 254-266): either an exception or the final
hero/villain scores. -/
def GameOutcome := Except String (ℚ × ℚ)

/-- Win/loss result of `play_match` (train_shark7.py lines 240-267): 1 when
the hero outscores the villain, 0 otherwise, and 0 when the simulation
raises (`except Exception: return 0`). -/
def play_match (r : GameOutcome) : ℕ :=
  match r with
  | .error _ => 0
  | .ok s => if s.2 < s.1 then 1 else 0

/-- Decides whether one game outcome is a hero win (no exception and a strictly
higher hero score). -/
def isWin (r : GameOutcome) : Bool :=
  match r with
  | .error _ => false
  | .ok s => decide (s.2 < s.1)

/-- Fitness aggregation of `evaluate_population` (train_shark7.py lines
271-288), with each genome's assigned games given as one chunk: a genome's
fitness is the sum of its `play_match` results. -/
def evaluate_population (outcomes : List (List GameOutcome)) : List ℕ :=
  outcomes.map (fun games => (games.map play_match).sum)

/-- Blank observation used as the base of concrete test inputs: no last
action, empty market and hand, a full reserved deck and the standard
hand limit of 7. -/
def emptyObs : Obs :=
  { action := none
    market_goods := fun _ => 0
    actor_goods := fun _ => 0
    market_goods_coins := fun _ => []
    actor_goods_coins := fun _ => []
    market_reserved_goods_count := 20
    max_player_goods_count := 7 }

/-- Componentwise nonnegativity of the tracked opponent counters. -/
def NonnegState (t : GlobalStateTracker) : Prop :=
  (∀ g, 0 ≤ t.opp_confirmed g) ∧ 0 ≤ t.opp_camels

/-! ### Helper lemmas about the arg-max selection loop -/

lemma applyAct_last (t : GlobalStateTracker) (a : TraderAction) :
    (applyAct t a).last_action_id = t.last_action_id := by
  cases a with
  | sell good count => rfl
  | take good count =>
      simp only [applyAct]
      split <;> rfl
  | trade req off => rfl

lemma foldl_selStep_some (l : List (TraderAction × ℚ)) :
    ∀ b : TraderAction × ℚ, ∃ x, List.foldl selStep (some b) l = some x := by
  induction l with
  | nil => intro b; exact ⟨b, rfl⟩
  | cons q rest ih =>
      intro b
      simp only [List.foldl, selStep]
      split
      · exact ih q
      · exact ih b

lemma foldl_selStep_mem (l : List (TraderAction × ℚ)) :
    ∀ (acc : Option (TraderAction × ℚ)) (x : TraderAction × ℚ),
      List.foldl selStep acc l = some x → acc = some x ∨ x ∈ l := by
  induction l with
  | nil => intro acc x h; exact Or.inl h
  | cons q rest ih =>
      intro acc x h
      simp only [List.foldl] at h
      rcases ih (selStep acc q) x h with h1 | h1
      · cases acc with
        | none =>
            simp only [selStep, Option.some.injEq] at h1
            exact Or.inr (h1 ▸ List.mem_cons_self q rest)
        | some b =>
            simp only [selStep] at h1
            split at h1
            · exact Or.inr (by simp [Option.some.injEq] at h1; simp [h1])
            · exact Or.inl h1
      · exact Or.inr (List.mem_cons_of_mem q h1)

lemma foldl_selStep_ge_acc (l : List (TraderAction × ℚ)) :
    ∀ (b x : TraderAction × ℚ), List.foldl selStep (some b) l = some x → b.2 ≤ x.2 := by
  induction l with
  | nil =>
      intro b x h
      simp only [List.foldl, Option.some.injEq] at h
      exact le_of_eq (by rw [h])
  | cons q rest ih =>
      intro b x h
      simp only [List.foldl, selStep] at h
      split at h
      · exact le_trans (le_of_lt (by assumption)) (ih q x h)
      · exact ih b x h

lemma foldl_selStep_ge (l : List (TraderAction × ℚ)) :
    ∀ (acc : Option (TraderAction × ℚ)) (x : TraderAction × ℚ),
      List.foldl selStep acc l = some x → ∀ q ∈ l, q.2 ≤ x.2 := by
  induction l with
  | nil => intro acc x _ q hq; exact absurd hq (List.not_mem_nil q)
  | cons r rest ih =>
      intro acc x h q hq
      simp only [List.foldl] at h
      rcases List.mem_cons.mp hq with rfl | hq
      · have hstep : ∃ c, selStep acc q = some c ∧ q.2 ≤ c.2 := by
          cases acc with
          | none => exact ⟨q, rfl, le_refl _⟩
          | some b =>
              simp only [selStep]
              split
              · exact ⟨q, rfl, le_refl _⟩
              · exact ⟨b, rfl, le_of_not_lt (by assumption)⟩
        rcases hstep with ⟨c, hc, hqc⟩
        rw [hc] at h
        exact le_trans hqc (foldl_selStep_ge_acc rest c x h)
      · exact ih (selStep acc r) x h q hq

lemma scoreList_mem (p : Genome) (c : Ctx) (rand : ℕ → ℚ) :
    ∀ (l : List TraderAction) (i : ℕ) (x : TraderAction) (q : ℚ),
      (x, q) ∈ scoreList p c rand i l →
        x ∈ l ∧ ∃ k, q = actionScore p c x + rand k * 0.1 := by
  intro l
  induction l with
  | nil => intro i x q h; exact absurd h (List.not_mem_nil _)
  | cons a rest ih =>
      intro i x q h
      simp only [scoreList, List.mem_cons] at h
      rcases h with h | h
      · have hx : x = a ∧ q = actionScore p c a + rand i * 0.1 := by
          constructor
          · exact congrArg Prod.fst h
          · exact congrArg Prod.snd h
        refine ⟨by simp [hx.1], ⟨i, ?_⟩⟩
        rw [hx.1]; exact hx.2
      · rcases ih (i + 1) x q h with ⟨hmem, hk⟩
        exact ⟨List.mem_cons_of_mem a hmem, hk⟩

lemma scoreList_mem_of (p : Genome) (c : Ctx) (rand : ℕ → ℚ) :
    ∀ (l : List TraderAction) (i : ℕ) (b : TraderAction), b ∈ l →
      ∃ j, (b, actionScore p c b + rand j * 0.1) ∈ scoreList p c rand i l := by
  intro l
  induction l with
  | nil => intro i b h; exact absurd h (List.not_mem_nil b)
  | cons a rest ih =>
      intro i b h
      rcases List.mem_cons.mp h with rfl | h
      · exact ⟨i, List.mem_cons_self _ _⟩
      · rcases ih (i + 1) b h with ⟨j, hj⟩
        exact ⟨j, List.mem_cons_of_mem _ hj⟩

/-! ### Claim theorems -/

/-- C1: for every non-empty list of legal actions and every observation,
`select_action` returns one of the supplied legal actions — it never
fabricates an action and never returns nothing. -/
theorem select_action_returns_legal (p : Genome) (t : GlobalStateTracker)
    (actions : List TraderAction) (obs : Obs) (rand : ℕ → ℚ)
    (h : actions ≠ []) :
    ∃ a, select_action p t actions obs rand = some a ∧ a ∈ actions := by
  unfold select_action
  change ∃ a, (selectBest (scoreList p (mkCtx p (update t obs) obs) rand 0 actions)).map
      Prod.fst = some a ∧ a ∈ actions
  set c := mkCtx p (update t obs) obs with hc
  have hne : scoreList p c rand 0 actions ≠ [] := by
    cases actions with
    | nil => exact absurd rfl h
    | cons a rest => simp [scoreList]
  rcases hsel : selectBest (scoreList p c rand 0 actions) with _ | x
  · exfalso
    unfold selectBest at hsel
    cases hl : scoreList p c rand 0 actions with
    | nil => exact hne hl
    | cons q rest =>
        rw [hl] at hsel
        simp only [List.foldl, selStep] at hsel
        rcases foldl_selStep_some rest q with ⟨y, hy⟩
        rw [hy] at hsel
        exact Option.noConfusion hsel
  · refine ⟨x.1, rfl, ?_⟩
    have hmem : x ∈ scoreList p c rand 0 actions := by
      rcases foldl_selStep_mem _ none x hsel with h1 | h1
      · exact Option.noConfusion h1
      · exact h1
    exact (scoreList_mem p c rand actions 0 x.1 x.2 (by simpa using hmem)).1

/-- Witness for C1 at a concrete singleton action list. -/
theorem select_action_returns_legal_witness :
    ∃ a, select_action gen108 initTracker [TraderAction.take Good.camel 1]
        emptyObs (fun _ => 0) = some a
      ∧ a ∈ [TraderAction.take Good.camel 1] :=
  select_action_returns_legal gen108 initTracker _ _ _ (by simp)

lemma update_noop (t : GlobalStateTracker) (obs : Obs) (a : ActionRef)
    (ha : obs.action = some a) (hl : t.last_action_id = some a.aid) :
    update t obs = t := by
  unfold update
  rw [ha]
  exact if_pos hl

/-- C3: feeding the tracker a second observation that carries an action with
the same identity as the one just processed leaves the tracker state
unchanged: `update` is idempotent per action identity. -/
theorem update_idempotent (t : GlobalStateTracker) (o1 o2 : Obs)
    (a1 a2 : ActionRef) (h1 : o1.action = some a1) (h2 : o2.action = some a2)
    (hid : a2.aid = a1.aid) :
    update (update t o1) o2 = update t o1 := by
  have hlast : (update t o1).last_action_id = some a1.aid := by
    unfold update
    rw [h1]
    show (if t.last_action_id = some a1.aid then t
      else applyAct { t with last_action_id := some a1.aid } a1.act).last_action_id
        = some a1.aid
    split
    · next heq => exact heq
    · rw [applyAct_last]
  exact update_noop _ _ _ h2 (by rw [hlast, hid])

/-- Witness for C3: processing the same sell twice equals processing it once. -/
theorem update_idempotent_witness :
    update (update initTracker
        { emptyObs with action := some ⟨1, TraderAction.sell Good.diamond 3⟩ })
        { emptyObs with action := some ⟨1, TraderAction.sell Good.diamond 3⟩ }
      = update initTracker
        { emptyObs with action := some ⟨1, TraderAction.sell Good.diamond 3⟩ } :=
  update_idempotent initTracker _ _ _ _ rfl rfl rfl

/-- Tracker state after the opponent sold 4 diamonds and then 3 more: the
cumulative `sold_cards` count (7) oversubscribes the diamond supply (6). -/
def oversoldTracker : GlobalStateTracker :=
  update (update initTracker
      { emptyObs with action := some ⟨1, TraderAction.sell Good.diamond 4⟩ })
    { emptyObs with action := some ⟨2, TraderAction.sell Good.diamond 3⟩ }

/-- C2 counterexample: after the tracker has recorded 7 sold diamonds (total
supply 6), the clamped deck-remaining count (0) plus market, own hand,
confirmed and sold counts is 7, not the fixed total supply 6. -/
theorem get_deck_remaining_sum_counterexample :
    get_deck_remaining oversoldTracker emptyObs Good.diamond
        + emptyObs.market_goods Good.diamond + emptyObs.actor_goods Good.diamond
        + oversoldTracker.opp_confirmed Good.diamond
        + oversoldTracker.sold_cards Good.diamond
      ≠ TOTAL_CARDS Good.diamond := by
  decide

/-- C2 amended: `get_deck_remaining` is always ≥ 0 for every good, and the
returned count plus the visible market count, own hand count, confirmed
opponent hand count and cumulative sold count equals the good's fixed total
supply whenever those tracked counts do not already exceed the supply (the
zero clamp otherwise makes the sum exceed the supply). -/
theorem get_deck_remaining_spec (t : GlobalStateTracker) (obs : Obs) (g : Good) :
    0 ≤ get_deck_remaining t obs g ∧
      ((obs.market_goods g : ℤ) + (obs.actor_goods g : ℤ) + t.opp_confirmed g
          + t.sold_cards g ≤ TOTAL_CARDS g →
        get_deck_remaining t obs g + (obs.market_goods g : ℤ) + (obs.actor_goods g : ℤ)
            + t.opp_confirmed g + t.sold_cards g = TOTAL_CARDS g) := by
  unfold get_deck_remaining
  constructor
  · exact le_max_left 0 _
  · intro hle
    omega

/-- Witness for C2 at the fresh tracker and the blank observation. -/
theorem get_deck_remaining_spec_witness :
    0 ≤ get_deck_remaining initTracker emptyObs Good.diamond ∧
      get_deck_remaining initTracker emptyObs Good.diamond
          + (emptyObs.market_goods Good.diamond : ℤ)
          + (emptyObs.actor_goods Good.diamond : ℤ)
          + initTracker.opp_confirmed Good.diamond
          + initTracker.sold_cards Good.diamond
        = TOTAL_CARDS Good.diamond :=
  ⟨(get_deck_remaining_spec initTracker emptyObs Good.diamond).1,
    (get_deck_remaining_spec initTracker emptyObs Good.diamond).2 (by decide)⟩

lemma applyAct_nonneg (t : GlobalStateTracker) (a : TraderAction)
    (h : NonnegState t) : NonnegState (applyAct t a) := by
  cases a with
  | sell good count =>
      refine ⟨fun g => ?_, h.2⟩
      simp only [applyAct]
      by_cases hg : g = good
      · have h1 := h.1 good
        simp only [hg, if_pos rfl]
        omega
      · simpa [hg] using h.1 g
  | take good count =>
      simp only [applyAct]
      split
      · refine ⟨h.1, ?_⟩
        show (0 : ℤ) ≤ t.opp_camels + (count : ℤ)
        have := h.2
        omega
      · refine ⟨fun g => ?_, h.2⟩
        by_cases hg : g = good
        · have h1 := h.1 good
          simp only [hg, if_pos rfl]
          omega
        · simpa [hg] using h.1 g
  | trade req off =>
      refine ⟨fun g => ?_, ?_⟩
      · simp only [applyAct]
        have h1 := h.1 g
        by_cases h2 : 0 < off g ∧ g ≠ camel <;> by_cases h3 : 0 < req g <;>
          simp only [h2, h3, if_pos, if_neg, if_true, if_false] <;> omega
      · simp only [applyAct]
        split
        · exact le_max_left 0 _
        · exact h.2

lemma update_nonneg (t : GlobalStateTracker) (obs : Obs)
    (h : NonnegState t) : NonnegState (update t obs) := by
  unfold update
  rcases ha : obs.action with _ | a
  · exact h
  · show NonnegState (if t.last_action_id = some a.aid then t
      else applyAct { t with last_action_id := some a.aid } a.act)
    by_cases hc : t.last_action_id = some a.aid
    · rw [if_pos hc]
      exact h
    · rw [if_neg hc]
      exact applyAct_nonneg _ _ ⟨h.1, h.2⟩

/-- C10: starting from a freshly constructed tracker, after every sequence of
updates the confirmed opponent hand count of every good and the opponent
camel counter are nonnegative: every decrement is clamped. -/
theorem tracker_counters_nonneg (obsList : List Obs) (g : Good) :
    0 ≤ (obsList.foldl update initTracker).opp_confirmed g ∧
      0 ≤ (obsList.foldl update initTracker).opp_camels := by
  have hfold : ∀ (l : List Obs) (t : GlobalStateTracker), NonnegState t →
      NonnegState (l.foldl update t) := by
    intro l
    induction l with
    | nil => intro t ht; exact ht
    | cons o rest ih => intro t ht; exact ih (update t o) (update_nonneg t o ht)
  have hinit : NonnegState initTracker := ⟨fun _ => le_refl 0, le_refl 0⟩
  exact ⟨(hfold obsList initTracker hinit).1 g, (hfold obsList initTracker hinit).2⟩

/-- C8 amended: processing an opponent Sell raises the agent tracker's score
estimate by exactly `count * average unit value + set-size bonus` (bonus 2
at count 3, 5 at count 4, 9 at count ≥ 5, else 0), while the
training-script tracker copy raises its estimate by exactly
`count * average unit value` with no bonus term. -/
theorem tracker_sell_score_estimate (t : GlobalStateTracker) (obs : Obs)
    (a : ActionRef) (good : Good) (count : ℕ)
    (ha : obs.action = some a) (hact : a.act = TraderAction.sell good count)
    (hid : t.last_action_id ≠ some a.aid) :
    (update t obs).opp_score_est
        = t.opp_score_est + (count : ℚ) * avgUnitValue good + sellBonusEst count
      ∧ (trainUpdate t obs).opp_score_est
        = t.opp_score_est + (count : ℚ) * avgUnitValue good := by
  constructor
  · unfold update
    rw [ha]
    show (if t.last_action_id = some a.aid then t
      else applyAct { t with last_action_id := some a.aid } a.act).opp_score_est = _
    rw [if_neg hid, hact]
    rfl
  · unfold trainUpdate
    rw [ha]
    show (if t.last_action_id = some a.aid then t
      else trainApplyAct { t with last_action_id := some a.aid } a.act).opp_score_est = _
    rw [if_neg hid, hact]
    rfl

/-- Witness for C8 amended: a fresh tracker observing Sell(diamond, 3) adds
3 × 5 + 2 = 17 to the agent tracker's opponent score estimate and 3 × 5 = 15
to the training tracker's. -/
theorem tracker_sell_score_estimate_witness :
    (update initTracker
          { emptyObs with action := some ⟨1, TraderAction.sell Good.diamond 3⟩ }).opp_score_est
        = initTracker.opp_score_est + (3 : ℚ) * avgUnitValue Good.diamond + sellBonusEst 3
      ∧ (trainUpdate initTracker
          { emptyObs with action := some ⟨1, TraderAction.sell Good.diamond 3⟩ }).opp_score_est
        = initTracker.opp_score_est + (3 : ℚ) * avgUnitValue Good.diamond :=
  tracker_sell_score_estimate initTracker _ _ _ _ rfl rfl (by simp [initTracker])

/-- C8 counterexample: the training-script tracker copy cited by the claim
(train_shark7.py lines 52-55) omits the set-size bonus term: a Sell(diamond, 3)
raises its estimate by 15, not `3 × avg + bonus(3) = 17`. -/
theorem train_tracker_sell_bonus_counterexample :
    (trainUpdate initTracker
        { emptyObs with action := some ⟨1, TraderAction.sell Good.diamond 3⟩ }).opp_score_est
      ≠ initTracker.opp_score_est + (3 : ℚ) * avgUnitValue Good.diamond + sellBonusEst 3 := by
  have hl : (trainUpdate initTracker
      { emptyObs with action := some ⟨1, TraderAction.sell Good.diamond 3⟩ }).opp_score_est
      = 15 := by
    show (if (none : Option ℕ) = some 1 then initTracker
      else trainApplyAct { initTracker with last_action_id := some 1 }
        (TraderAction.sell Good.diamond 3)).opp_score_est = 15
    rw [if_neg (by simp)]
    norm_num [trainApplyAct, initTracker, avgUnitValue]
  rw [hl]
  norm_num [initTracker, avgUnitValue, sellBonusEst]

/-- C5 counterexample: in the shipped Gen-108 genome the Sell set-completion
bonus at count 4 (1.512) is strictly below the bonus at count 3 (1.561), so
the bonus component does not increase across the 3 → 4 boundary. -/
theorem sell_bonus_monotonicity_counterexample :
    sellSetBonus gen108 4 < sellSetBonus gen108 3 := by
  norm_num [sellSetBonus, gen108]

/-- C5 amended: with the shipped genome the Sell bonus component strictly
increases across the 1 → 3 and 4 → 5 boundaries but strictly decreases
across 3 → 4. -/
theorem sell_bonus_boundaries_gen108 :
    sellSetBonus gen108 1 < sellSetBonus gen108 3
      ∧ sellSetBonus gen108 4 < sellSetBonus gen108 3
      ∧ sellSetBonus gen108 4 < sellSetBonus gen108 5 := by
  norm_num [sellSetBonus, gen108]

lemma sum_play_match (gs : List GameOutcome) :
    (gs.map play_match).sum = gs.countP isWin := by
  induction gs with
  | nil => rfl
  | cons r rest ih =>
      simp only [List.map_cons, List.sum_cons, List.countP_cons, ih]
      cases r with
      | error e => simp [play_match, isWin]
      | ok s =>
          by_cases hs : s.2 < s.1 <;> simp [play_match, isWin, hs] <;> omega

lemma sellTotal_imp_shift (b : ℚ) (good : Good) (count : ℕ) (obs : Obs)
    (conf deck : Good → ℤ) (is_endgame am_i_winning : Bool)
    (himp : deck good = 0 ∧ conf good = 0 ∧ obs.market_goods good = 0) :
    sellTotal { gen108 with impossible_sell_bonus := b } good count obs conf deck
        is_endgame am_i_winning
      = sellTotal { gen108 with impossible_sell_bonus := 0 } good count obs conf deck
          is_endgame am_i_winning + b := by
  rcases himp with ⟨h1, h2, h3⟩
  simp only [sellTotal, sellSetBonus, h1, h2, h3]
  norm_num
  ring

/-- C6 amended: whenever a good's tracked deck-remaining, confirmed opponent
hand and visible market counts are all zero, raising the
`impossible_sell_bonus` weight strictly raises the Sell score of every Sell
action on that good, except for a cheap-good (leather/spice/fabric) sell of
count ≤ 2 under hand pressure < 10, whose score is the flat -50 regardless
of the bonus. -/
theorem impossible_sell_bonus_applied (b1 b2 : ℚ) (good : Good) (count : ℕ)
    (obs : Obs) (pressure : ℚ) (conf deck : Good → ℤ)
    (is_endgame am_i_winning : Bool) (hb : b1 < b2)
    (himp : deck good = 0 ∧ conf good = 0 ∧ obs.market_goods good = 0)
    (hexc : ¬ ((good = leather ∨ good = spice ∨ good = fabric)
        ∧ count ≤ 2 ∧ pressure < 10)) :
    score_sell { gen108 with impossible_sell_bonus := b1 } good count obs pressure
        conf deck is_endgame am_i_winning
      < score_sell { gen108 with impossible_sell_bonus := b2 } good count obs pressure
          conf deck is_endgame am_i_winning := by
  have hs1 := sellTotal_imp_shift b1 good count obs conf deck is_endgame am_i_winning himp
  have hs2 := sellTotal_imp_shift b2 good count obs conf deck is_endgame am_i_winning himp
  set S := sellTotal { gen108 with impossible_sell_bonus := 0 } good count obs conf deck
    is_endgame am_i_winning with hS
  by_cases hl : good = diamond ∨ good = gold ∨ good = silver
  · simp only [score_sell, if_pos hl, hs1, hs2]
    have hm : (0 : ℚ) < gen108.luxury_mult := by norm_num [gen108]
    nlinarith [mul_pos (sub_pos.mpr hb) hm]
  · by_cases hc : good = leather ∨ good = spice ∨ good = fabric
    · by_cases h5 : 5 ≤ count
      · simp only [score_sell, if_neg hl, if_pos hc, if_pos h5, hs1, hs2]
        have hm : (0 : ℚ) < gen108.cheap_mult := by norm_num [gen108]
        nlinarith [mul_pos (sub_pos.mpr hb) hm]
      · by_cases h4 : count = 4
        · simp only [score_sell, if_neg hl, if_pos hc, if_neg h5, if_pos h4, hs1, hs2]
          have hm : (0 : ℚ) < gen108.cheap_mult * 0.75 := by norm_num [gen108]
          nlinarith [mul_pos (sub_pos.mpr hb) hm]
        · by_cases he : is_endgame = true ∧ 3 ≤ count
          · simp only [score_sell, if_neg hl, if_pos hc, if_neg h5, if_neg h4,
              if_pos he, hs1, hs2]
            linarith
          · have hno : ¬ (count ≤ 2 ∧ pressure < 10) := fun hcp => hexc ⟨hc, hcp⟩
            simp only [score_sell, if_neg hl, if_pos hc, if_neg h5, if_neg h4,
              if_neg he, if_neg hno, hs1, hs2]
            linarith
    · simp only [score_sell, if_neg hl, if_neg hc, hs1, hs2]
      linarith

/-- Witness for C6 amended: a Sell(diamond, 1) with all diamond counts zero
scores strictly higher with `impossible_sell_bonus = 1` than with 0. -/
theorem impossible_sell_bonus_applied_witness :
    score_sell { gen108 with impossible_sell_bonus := 0 } Good.diamond 1 emptyObs 0
        (fun _ => 0) (fun _ => 0) false false
      < score_sell { gen108 with impossible_sell_bonus := 1 } Good.diamond 1 emptyObs 0
          (fun _ => 0) (fun _ => 0) false false :=
  impossible_sell_bonus_applied 0 1 Good.diamond 1 emptyObs 0 (fun _ => 0) (fun _ => 0)
    false false (by norm_num) ⟨rfl, rfl, rfl⟩ (by simp)

/-- C6 counterexample: for a cheap good (leather), sell count 1 and pressure
0 < 10, the score is the flat -50 whether or not the impossible-to-complete
bonus weight is present, even though the impossible condition (deck,
confirmed and market counts all zero) holds — so the bonus is not applied to
every Sell on such a good. -/
theorem impossible_sell_bonus_counterexample :
    ((fun _ => 0 : Good → ℤ) Good.leather = 0
        ∧ (fun _ => 0 : Good → ℤ) Good.leather = 0
        ∧ emptyObs.market_goods Good.leather = 0)
      ∧ score_sell gen108 Good.leather 1 emptyObs 0 (fun _ => 0) (fun _ => 0) false false
        = score_sell { gen108 with impossible_sell_bonus := 0 } Good.leather 1 emptyObs 0
            (fun _ => 0) (fun _ => 0) false false := by
  refine ⟨⟨rfl, rfl, rfl⟩, ?_⟩
  have hlux : ¬(Good.leather = Good.diamond ∨ Good.leather = Good.gold
      ∨ Good.leather = Good.silver) := by decide
  norm_num [score_sell, hlux]

/-- Market with a single spice token of value 3 and an actor hand holding
`n` spice, used to probe the Take set-completion bonus. -/
def spiceObs (n : ℕ) : Obs :=
  { emptyObs with
    actor_goods := fun g => if g = Good.spice then n else 0
    market_goods_coins := fun g => if g = Good.spice then [3] else [] }

/-- C7 counterexample: taking a spice while holding 2 (bringing the hand
count to 3) scores exactly the same as taking it while holding 0 — the Take
scorer awards no set-completion step bonus for a count that would become 3
(bonuses only fire at current counts 3 and 4, i.e. counts becoming 4 and 5). -/
theorem take_bonus_counterexample :
    (spiceObs 2).actor_goods Good.spice = 2
      ∧ (spiceObs 0).actor_goods Good.spice = 0
      ∧ score_take gen108 Good.spice (spiceObs 2) 0 0 (fun _ => 0) false false (fun _ => 5)
        = score_take gen108 Good.spice (spiceObs 0) 0 0 (fun _ => 0) false false
            (fun _ => 5) := by
  refine ⟨rfl, rfl, ?_⟩
  have hnc : ¬ (Good.spice = Good.camel) := by decide
  norm_num [score_take, spiceObs, emptyObs, takeSetBonus, calculate_opponent_potential,
    hnc]

/-- C7 amended: the Take set-completion step bonus is zero when the hand
count would become 3 (current count 2), and fires only when the count would
become 4 (current count 3, bonus 15 + scarcity premium) or 5 (current count
4, bonus 20 + scarcity premium), the higher threshold strictly larger. -/
theorem take_set_bonus_schedule (s : ℚ) :
    takeSetBonus s 2 = 0
      ∧ takeSetBonus s 3 = 15 + s
      ∧ takeSetBonus s 4 = 20 + s
      ∧ takeSetBonus s 3 < takeSetBonus s 4 := by
  refine ⟨by norm_num [takeSetBonus], by norm_num [takeSetBonus],
    by norm_num [takeSetBonus], ?_⟩
  norm_num [takeSetBonus]

/-- C4 amended: the tie-break jitter `random.random() * 0.1` lies in
[0, 0.1), so an action whose base score trails some listed action's base
score by at least 0.1 is never selected; gaps smaller than 0.1 are not
protected. -/
theorem jitter_gap_not_overturned (p : Genome) (t : GlobalStateTracker) (obs : Obs)
    (rand : ℕ → ℚ) (actions : List TraderAction) (a b : TraderAction)
    (hr : ∀ i, 0 ≤ rand i ∧ rand i < 1)
    (hb : b ∈ actions)
    (hgap : actionScore p (mkCtx p (update t obs) obs) a + 0.1
        ≤ actionScore p (mkCtx p (update t obs) obs) b) :
    select_action p t actions obs rand ≠ some a := by
  intro hsel
  unfold select_action at hsel
  change (selectBest (scoreList p (mkCtx p (update t obs) obs) rand 0 actions)).map
    Prod.fst = some a at hsel
  set c := mkCtx p (update t obs) obs with hc
  rcases hbest : selectBest (scoreList p c rand 0 actions) with _ | x
  · rw [hbest] at hsel
    exact Option.noConfusion hsel
  · rw [hbest] at hsel
    have hxa : x.1 = a := by
      simpa using hsel
    have hmem : x ∈ scoreList p c rand 0 actions := by
      rcases foldl_selStep_mem _ none x hbest with h | h
      · exact Option.noConfusion h
      · exact h
    obtain ⟨-, k, hk⟩ := scoreList_mem p c rand actions 0 x.1 x.2 (by simpa using hmem)
    obtain ⟨j, hj⟩ := scoreList_mem_of p c rand actions 0 b hb
    have hle := foldl_selStep_ge _ none x hbest _ hj
    simp only at hle
    have hk1 := (hr k).1
    have hk2 := (hr k).2
    have hj1 := (hr j).1
    rw [hxa] at hk
    have h01 : (0.1 : ℚ) = 1 / 10 := by norm_num
    linarith [hk, hle, hgap, hk1, hk2, hj1]

/-- Market for the jitter counterexample: one spice pile [1, 1], one leather
pile [1], one card of each in the market, everything else empty. -/
def cex4Obs : Obs :=
  { emptyObs with
    market_goods := fun g =>
      if g = Good.spice then 1 else if g = Good.leather then 1 else 0
    market_goods_coins := fun g =>
      if g = Good.spice then [1, 1] else if g = Good.leather then [1] else [] }

/-- Tracker for the jitter counterexample: the opponent is confirmed to hold
2 spice, giving the spice take a small denial increment (4 × 0.02 = 0.08). -/
def cex4Tracker : GlobalStateTracker :=
  { initTracker with opp_confirmed := fun g => if g = Good.spice then 2 else 0 }

/-- Jitter draws for the counterexample: 0 for the first scored action, 0.9
for the second; both legal outputs of `random.random()`. -/
def cex4Rand : ℕ → ℚ :=
  fun i => if i = 0 then 0 else 9 / 10

/-- Derived context of the jitter counterexample call. -/
def cex4Ctx : Ctx :=
  mkCtx gen108 (update cex4Tracker cex4Obs) cex4Obs

lemma cex4_base_scores :
    actionScore gen108 cex4Ctx (TraderAction.take Good.leather 1) = 1
      ∧ actionScore gen108 cex4Ctx (TraderAction.take Good.spice 1) = 1.08 := by
  constructor
  · norm_num +decide [actionScore, cex4Ctx, mkCtx, update, cex4Obs, cex4Tracker, emptyObs,
      score_take, takeSetBonus, calculate_opponent_potential, get_deck_remaining,
      initTracker, TOTAL_CARDS, countNonCamel, empty_piles, Good.all, gen108, lastN]
  · norm_num +decide [actionScore, cex4Ctx, mkCtx, update, cex4Obs, cex4Tracker, emptyObs,
      score_take, takeSetBonus, calculate_opponent_potential, get_deck_remaining,
      initTracker, TOTAL_CARDS, countNonCamel, empty_piles, Good.all, gen108, lastN]

/-- C4 counterexample: with the shipped genome, Take(spice) has a strictly
higher base score (1.08, via the denial term 4 × 0.02) than Take(leather)
(base 1), the base gap 0.08 being smaller than the jitter range 0.1; with
in-range jitter draws 0 and 0.9 the policy nevertheless selects the
lower-base Take(leather) — jitter can overturn a genuine preference. -/
theorem jitter_overturn_counterexample :
    actionScore gen108 cex4Ctx (TraderAction.take Good.leather 1)
        < actionScore gen108 cex4Ctx (TraderAction.take Good.spice 1)
      ∧ (0 ≤ cex4Rand 0 ∧ cex4Rand 0 < 1)
      ∧ (0 ≤ cex4Rand 1 ∧ cex4Rand 1 < 1)
      ∧ select_action gen108 cex4Tracker
          [TraderAction.take Good.spice 1, TraderAction.take Good.leather 1]
          cex4Obs cex4Rand
        = some (TraderAction.take Good.leather 1) := by
  obtain ⟨hl, hs⟩ := cex4_base_scores
  refine ⟨by rw [hl, hs]; norm_num, by norm_num [cex4Rand], by norm_num [cex4Rand], ?_⟩
  show (selectBest (scoreList gen108 cex4Ctx cex4Rand 0
      [TraderAction.take Good.spice 1, TraderAction.take Good.leather 1])).map
    Prod.fst = some (TraderAction.take Good.leather 1)
  simp only [scoreList, hl, hs]
  norm_num [cex4Rand, selectBest, selStep, List.foldl]

/-- Market for the C4 amended witness: a diamond pile [5] and a leather pile
[1]; the diamond take outscores the leather take by far more than 0.1. -/
def cex4bObs : Obs :=
  { emptyObs with
    market_goods := fun g =>
      if g = Good.diamond then 1 else if g = Good.leather then 1 else 0
    market_goods_coins := fun g =>
      if g = Good.diamond then [5] else if g = Good.leather then [1] else [] }

lemma cex4b_gap :
    actionScore gen108 (mkCtx gen108 (update initTracker cex4bObs) cex4bObs)
        (TraderAction.take Good.leather 1) + 0.1
      ≤ actionScore gen108 (mkCtx gen108 (update initTracker cex4bObs) cex4bObs)
          (TraderAction.take Good.diamond 1) := by
  norm_num +decide [actionScore, mkCtx, update, cex4bObs, emptyObs, score_take,
    takeSetBonus, calculate_opponent_potential, get_deck_remaining, initTracker,
    TOTAL_CARDS, countNonCamel, empty_piles, Good.all, gen108, lastN]

/-- Witness for C4 amended: with zero jitter draws and a 4.355-point base gap,
the leather take is never the selected action. -/
theorem jitter_gap_not_overturned_witness :
    select_action gen108 initTracker
        [TraderAction.take Good.diamond 1, TraderAction.take Good.leather 1]
        cex4bObs (fun _ => 0)
      ≠ some (TraderAction.take Good.leather 1) :=
  jitter_gap_not_overturned gen108 initTracker cex4bObs (fun _ => 0) _
    (TraderAction.take Good.leather 1) (TraderAction.take Good.diamond 1)
    (fun _ => ⟨le_refl 0, by norm_num⟩) (by simp) cex4b_gap

/-- C9: a game whose simulation raises is recorded as a loss (`play_match`
returns 0 on an exception), and population evaluation stays total: each
genome's recorded fitness is exactly the number of its games that completed
without an exception and were won, however many games failed. -/
theorem evaluate_errors_are_losses (outcomes : List (List GameOutcome)) :
    evaluate_population outcomes = outcomes.map (fun gs => gs.countP isWin)
      ∧ ∀ e : String, play_match (Except.error e) = 0 := by
  constructor
  · unfold evaluate_population
    simp only [sum_play_match]
  · intro e
    rfl

end Shark7
